import Mathlib

/-!
Verification of django-generic-bookmarks against its specification.

The development shallowly embeds the bookmark storage model
(bookmarks/models.py), the default model backend (bookmarks/backends.py,
class Backend), the toggle form (bookmarks/forms.py, BookmarkForm.save),
the handler and registry (bookmarks/handlers.py) and the POST view
(bookmarks/views/init.py).

The manager layer (bookmarks.managers.BookmarksManager) and the
exceptions module are imported by the sources but are not part of the
source tree; the definitions embedding them are modelled from the
specification and carry a doc comment saying so.

Machine conventions: users, content types and primary keys are Nat ids;
the nullable user foreign key is Option Nat; creation timestamps are Nat
clock values handed out by the store (auto_now_add); a detached or
unsaved row has pk = none.
-/

namespace Bookmarks

/-- Error kinds raised by the storage layer, embedding the exception
classes referenced as bookmarks.exceptions (AlreadyExists, DoesNotExist). -/
inductive BErr where
  | alreadyExists
  | doesNotExist
  deriving Repr, DecidableEq

/-- Embeds the Bookmark model of bookmarks/models.py: content_type,
object_id, key, nullable user, created_at (auto_now_add), and the
implicit primary key (none when the row is detached or unsaved). -/
structure Bookmark where
  contentType : Nat
  objectId : Nat
  key : String
  user : Option Nat
  createdAt : Nat
  pk : Option Nat
  deriving Repr, DecidableEq

/-- The unique_together tuple ('content_type', 'object_id', 'key', 'user')
declared in Bookmark.Meta. -/
def Bookmark.ident (b : Bookmark) : Nat × Nat × String × Option Nat :=
  (b.contentType, b.objectId, b.key, b.user)

/-- A bookmarked target object: its content type id and its primary key. -/
structure Instance where
  contentType : Nat
  pk : Nat
  deriving Repr, DecidableEq

/-- Does bookmark `b` belong to user `u` for target `inst` under `key`?
This is the lookup every (user, instance, key) triple operation uses. -/
def Bookmark.matches (b : Bookmark) (u : Nat) (inst : Instance) (key : String) : Bool :=
  b.user == some u && b.contentType == inst.contentType &&
    b.objectId == inst.pk && b.key == key

/-- The bookmark table together with the store clock (source of created_at
values) and the primary key sequence. Rows are kept in insertion order. -/
structure Store where
  bookmarks : List Bookmark
  nextTime : Nat
  nextPk : Nat
  deriving Repr, DecidableEq

/-- The empty bookmark table. -/
def Store.empty : Store := ⟨[], 0, 0⟩

/-- The storage uniqueness constraint of Bookmark.Meta.unique_together:
no two rows share the (content_type, object_id, key, user) tuple. -/
def Store.uniqueTogether (s : Store) : Prop :=
  s.bookmarks.Pairwise (fun a b => a.ident ≠ b.ident)

/-- At most one row carries the tuple `t`. -/
def Store.atMostOne (s : Store) (t : Nat × Nat × String × Option Nat) : Prop :=
  s.bookmarks.countP (fun b => b.ident == t) ≤ 1

/-- Rows are stored in strictly increasing creation time, and the clock is
ahead of every row: what auto_now_add timestamps give a single store. -/
def Store.chron (s : Store) : Prop :=
  s.bookmarks.Pairwise (fun a b => a.createdAt < b.createdAt) ∧
    ∀ b ∈ s.bookmarks, b.createdAt < s.nextTime

/-- Modelled from the spec: BookmarksManager.add (bookmarks/managers.py is
not under src/, only its callers are). "add(user, target, key) → new
bookmark; fails with AlreadyExists if the triple already exists", with
uniqueness enforced by the storage layer. -/
def managerAdd (s : Store) (u : Nat) (inst : Instance) (key : String) :
    Except BErr (Store × Bookmark) :=
  if s.bookmarks.any (fun b => b.matches u inst key) then
    Except.error BErr.alreadyExists
  else
    let b : Bookmark :=
      ⟨inst.contentType, inst.pk, key, some u, s.nextTime, some s.nextPk⟩
    Except.ok (⟨s.bookmarks ++ [b], s.nextTime + 1, s.nextPk + 1⟩, b)

/-- Modelled from the spec: BookmarksManager.remove (bookmarks/managers.py
is not under src/). "remove(user, target, key) → deletes; fails with
DoesNotExist if absent". -/
def managerRemove (s : Store) (u : Nat) (inst : Instance) (key : String) :
    Except BErr Store :=
  if s.bookmarks.any (fun b => b.matches u inst key) then
    Except.ok ⟨s.bookmarks.filter (fun b => !(b.matches u inst key)),
      s.nextTime, s.nextPk⟩
  else
    Except.error BErr.doesNotExist

/-- Modelled from the spec: BookmarksManager.remove_all_for
(bookmarks/managers.py is not under src/). "remove_all_for(target) →
deletes all bookmarks referencing target". -/
def managerRemoveAllFor (s : Store) (inst : Instance) : Store :=
  ⟨s.bookmarks.filter
      (fun b => !(b.contentType == inst.contentType && b.objectId == inst.pk)),
    s.nextTime, s.nextPk⟩

/-- Optional field lookups, embedding the kwargs dictionaries passed to the
manager filters (the fields the sources actually use: user and key). -/
structure Lookups where
  user : Option (Option Nat)
  key : Option String
  deriving Repr, DecidableEq

/-- The empty kwargs dictionary. -/
def Lookups.none : Lookups := ⟨Option.none, Option.none⟩

/-- Does bookmark `b` satisfy every lookup present in `l`? -/
def matchesLookups (l : Lookups) (b : Bookmark) : Bool :=
  (match l.user with
   | Option.none => true
   | Option.some u => b.user == u) &&
  (match l.key with
   | Option.none => true
   | Option.some k => b.key == k)

/-- Modelled from the spec: BookmarksManager.filter_with_contents
(bookmarks/managers.py is not under src/). Returns the bookmark rows
matching the given lookups. -/
def filter_with_contents (s : Store) (l : Lookups) : List Bookmark :=
  s.bookmarks.filter (matchesLookups l)

/-- Modelled from the spec: BookmarksManager.filter_for
(bookmarks/managers.py is not under src/). "all bookmarks added for
*instance* and corresponding to other given kwargs". -/
def managerFilterFor (s : Store) (inst : Instance) (l : Lookups) : List Bookmark :=
  s.bookmarks.filter
    (fun b => b.contentType == inst.contentType && b.objectId == inst.pk &&
      matchesLookups l b)

/-- Insert `b` into `l` before the first element it compares `le` to,
keeping the rest: one step of the order_by sort. -/
def ordInsert (le : Bookmark → Bookmark → Bool) (b : Bookmark) :
    List Bookmark → List Bookmark
  | [] => [b]
  | c :: l => if le b c then b :: c :: l else c :: ordInsert le b l

/-- Insertion sort of the bookmark rows under `le`. -/
def sortByLe (le : Bookmark → Bookmark → Bool) : List Bookmark → List Bookmark
  | [] => []
  | b :: l => ordInsert le b (sortByLe le l)

/-- Ascending creation-time comparison. -/
def ascLe (a b : Bookmark) : Bool := decide (a.createdAt ≤ b.createdAt)

/-- Descending creation-time comparison. -/
def descLe (a b : Bookmark) : Bool := decide (b.createdAt ≤ a.createdAt)

/-- order_by('created_at') when `desc` is false, order_by('-created_at')
when `desc` is true. -/
def orderByCreatedAt (desc : Bool) (l : List Bookmark) : List Bookmark :=
  if desc then sortByLe descLe l else sortByLe ascLe l

namespace Backend

/-- Embeds Backend.add of bookmarks/backends.py: delegates to the manager. -/
def add (s : Store) (u : Nat) (inst : Instance) (key : String) :
    Except BErr (Store × Bookmark) :=
  managerAdd s u inst key

/-- Embeds Backend.remove of bookmarks/backends.py: calls the manager
remove and, having no return statement, returns None. -/
def remove (s : Store) (u : Nat) (inst : Instance) (key : String) :
    Except BErr (Store × Option Bookmark) :=
  (managerRemove s u inst key).map (fun s' => (s', Option.none))

/-- Embeds Backend.remove_all_for of bookmarks/backends.py. -/
def remove_all_for (s : Store) (inst : Instance) : Store :=
  managerRemoveAllFor s inst

/-- Embeds Backend.filter_by of bookmarks/backends.py: lookups start as
the user keyword, are updated with the extra kwargs (which therefore win
on the user field), and the result is ordered by created_at, descending
when `rev` is true. -/
def filter_by (s : Store) (u : Nat) (rev : Bool) (kw : Lookups) : List Bookmark :=
  let lookups : Lookups := ⟨some (kw.user.getD (some u)), kw.key⟩
  orderByCreatedAt rev (filter_with_contents s lookups)

/-- Embeds Backend.filter_for of bookmarks/backends.py. -/
def filter_for (s : Store) (inst : Instance) (rev : Bool) (kw : Lookups) :
    List Bookmark :=
  orderByCreatedAt rev (managerFilterFor s inst kw)

/-- Embeds Backend.exists of bookmarks/backends.py:
filter_for(instance, user=user, key=key).exists(). -/
def existsB (s : Store) (u : Nat) (inst : Instance) (key : String) : Bool :=
  !(filter_for s inst false ⟨some (some u), some key⟩).isEmpty

end Backend

/-- Embeds BookmarkForm.save of bookmarks/forms.py for a validated form
(authenticated user `u`, resolved target `inst`, cleaned `key`): picks
backend.remove when the bookmark exists and backend.add otherwise, and
returns whatever the chosen backend method returns. -/
def BookmarkForm.save (s : Store) (u : Nat) (inst : Instance) (key : String) :
    Except BErr (Store × Option Bookmark) :=
  if Backend.existsB s u inst key then
    Backend.remove s u inst key
  else
    (Backend.add s u inst key).map (fun p => (p.1, some p.2))

/-- An HTTP response: status code and body. -/
structure HttpResponse where
  status : Nat
  body : String
  deriving Repr, DecidableEq

/-- An incoming request: its method string and the POST data. -/
structure Request where
  method : String
  post : List (String × String)
  deriving Repr, DecidableEq

/-- request.POST.get(k): the first value stored under `k`, if any. -/
def Request.postGet (r : Request) (k : String) : Option String :=
  (r.post.find? (fun p => p.1 == k)).map (fun p => p.2)

/-- Embeds the Handler option attributes of bookmarks/handlers.py that the
settled claims touch: default_key (settings default 'main') and
can_remove_bookmarks (settings default True). -/
structure Handler where
  defaultKey : String
  canRemoveBookmarks : Bool
  deriving Repr, DecidableEq

/-- Embeds Handler.get_key of bookmarks/handlers.py lines 62-79: the
method takes (self, request, instance) only and returns self.default_key. -/
def Handler.get_key (h : Handler) (req : Request) (inst : Instance) : String :=
  h.defaultKey

/-- Embeds Handler.allow_key of bookmarks/handlers.py:
key == self.get_key(request, instance). -/
def Handler.allow_key (h : Handler) (req : Request) (inst : Instance)
    (key : String) : Bool :=
  key == h.get_key req inst

/-- Embeds Handler.fail of bookmarks/handlers.py: always an
HttpResponseBadRequest with a fixed message. -/
def Handler.fail (h : Handler) (req : Request) (errors : String) : HttpResponse :=
  ⟨400, "Invalid data in bookmark form."⟩

/-- Number of parameters, after self, of Handler.get_key as defined in
bookmarks/handlers.py: (request, instance). -/
def getKeyParamCount : Nat := 2

/-- Number of arguments passed to handler.get_key by its in-repository
callers: views/init.py line 33 and templatetags/bookmarks_tags.py
line 104 both call handler.get_key(request, instance, provided_key). -/
def getKeyCallArgCount : Nat := 3

/-- Modelled from the spec: the get_key interface the callers and the
specification describe, "get_key(request, target, provided_key) — returns
provided key or a computed default"; bookmarks/handlers.py does not
define a get_key with a provided-key parameter. -/
def getKeySpec (h : Handler) (req : Request) (inst : Instance)
    (provided : Option String) : String :=
  match provided with
  | Option.none => h.get_key req inst
  | Option.some k => k

/-- Registry error kinds, embedding the exception classes referenced as
bookmarks.exceptions (AlreadyHandled, NotHandled). -/
inductive RegErr where
  | alreadyHandled
  | notHandled
  deriving Repr, DecidableEq

/-- Embeds the Registry state of bookmarks/handlers.py: the _registry
dict (model id → handler instance) and the set of models whose pre_delete
signal has been connected to their handler's deleting_target_object
receiver by _connect_model_signals. -/
structure Registry where
  registry : List (Nat × Handler)
  connected : List Nat
  deriving Repr, DecidableEq

/-- The registry before any registration. -/
def Registry.empty : Registry := ⟨[], []⟩

/-- model in self._registry. -/
def Registry.isRegistered (r : Registry) (m : Nat) : Bool :=
  r.registry.any (fun p => p.1 == m)

/-- Embeds Registry.register of bookmarks/handlers.py on a list of
models: walk the list; raising AlreadyHandled on a registered model ends
the walk with the registry as mutated so far; otherwise store a handler
instance for the model and connect its pre_delete signal, then continue.
The handler instantiated is the default Handler with the default
settings attributes. -/
def Registry.registerList : Registry → List Nat → Registry × Option RegErr
  | r, [] => (r, Option.none)
  | r, m :: rest =>
    if r.isRegistered m then
      (r, some RegErr.alreadyHandled)
    else
      Registry.registerList
        ⟨r.registry ++ [(m, ⟨"main", true⟩)], r.connected ++ [m]⟩ rest

/-- Embeds Registry.unregister of bookmarks/handlers.py on a list of
models: walk the list; raising NotHandled on an unregistered model ends
the walk with the registry as mutated so far; otherwise delete the
model's _registry entry. Nothing is ever disconnected. -/
def Registry.unregisterList : Registry → List Nat → Registry × Option RegErr
  | r, [] => (r, Option.none)
  | r, m :: rest =>
    if r.isRegistered m then
      Registry.unregisterList
        ⟨r.registry.filter (fun p => !(p.1 == m)), r.connected⟩ rest
    else
      (r, some RegErr.notHandled)

/-- A pre_delete event for target `inst`: every receiver connected for the
target's model runs Handler.deleting_target_object (handlers.py lines
240-248), which calls backend.remove_all_for(instance). -/
def Registry.dispatchPreDelete (r : Registry) (s : Store) (inst : Instance) :
    Store :=
  if inst.contentType ∈ r.connected then Backend.remove_all_for s inst else s

/-- Outcome of running a Python view function: an HTTP response it
returned, or an unhandled exception propagating to the framework (which
reports a server error, not a 4xx response of the view). -/
inductive PyOutcome where
  | response (r : HttpResponse)
  | exception (e : String)
  deriving Repr, DecidableEq

/-- Did the view return an HTTP response (as opposed to raising)? -/
def PyOutcome.isResponse : PyOutcome → Bool
  | PyOutcome.response _ => true
  | PyOutcome.exception _ => false

/-- The names bookmarks/handlers.py binds at module level: the Handler
and Registry classes and the registry instance `store` (line 398). The
name `library`, which views/init.py line 21 (and the templatetags and
tests) read off the module, is not among them. -/
def handlersModuleNames : List String := ["Handler", "Registry", "store"]

/-- Embeds the bookmark view of bookmarks/views/init.py as it runs
against the modules in src/: non-POST → 403 Forbidden; a missing POST
model value → AttributeError (None has no split, line 17); a dotted name
resolving to no model → 400 Invalid model. (lines 18-20); otherwise
execution reaches handlers.library.get_handler(model) on line 21 and
raises AttributeError, because handlers.py binds the registry as `store`
and never binds `library` — so the handler, form, key, signal and save
code further down the function body is unreachable. -/
def bookmarkView (resolveModel : String → Option Nat) (req : Request) :
    PyOutcome :=
  if req.method == "POST" then
    match req.postGet "model" with
    | Option.none => PyOutcome.exception "AttributeError"
    | Option.some name =>
      match resolveModel name with
      | Option.none => PyOutcome.response ⟨400, "Invalid model."⟩
      | Option.some _ => PyOutcome.exception "AttributeError"
  else PyOutcome.response ⟨403, "Forbidden."⟩

/-- A concrete django get_model environment with a single installed
model: the dotted name "app.article" resolves to model id 0. -/
def resolve0 : String → Option Nat :=
  fun name => if name = "app.article" then some 0 else Option.none

/-! Helper lemmas. -/

theorem Bookmark.matches_iff (b : Bookmark) (u : Nat) (inst : Instance) (key : String) :
    b.matches u inst key = true ↔
      b.ident = (inst.contentType, inst.pk, key, some u) := by
  simp only [Bookmark.matches, Bookmark.ident, Bool.and_eq_true, beq_iff_eq,
    Prod.mk.injEq]
  tauto

theorem ordInsert_of_forall_le (le : Bookmark → Bookmark → Bool) (b : Bookmark)
    (l : List Bookmark) (h : ∀ c ∈ l, le b c = true) :
    ordInsert le b l = b :: l := by
  cases l with
  | nil => rfl
  | cons c t => simp [ordInsert, h c (by simp)]

theorem ordInsert_of_forall_not_le (le : Bookmark → Bookmark → Bool) (b : Bookmark)
    (l : List Bookmark) (h : ∀ c ∈ l, le b c = false) :
    ordInsert le b l = l ++ [b] := by
  induction l with
  | nil => rfl
  | cons c t ih =>
    simp only [ordInsert, h c (by simp), Bool.false_eq_true, if_false,
      List.cons_append, List.cons.injEq, true_and]
    exact ih (fun x hx => h x (by simp [hx]))

theorem ordInsert_perm (le : Bookmark → Bookmark → Bool) (b : Bookmark)
    (l : List Bookmark) : List.Perm (ordInsert le b l) (b :: l) := by
  induction l with
  | nil => exact List.Perm.refl _
  | cons c t ih =>
    rw [ordInsert]
    split
    · exact List.Perm.refl _
    · exact (ih.cons c).trans (List.Perm.swap b c t)

theorem sortByLe_perm (le : Bookmark → Bookmark → Bool) (l : List Bookmark) :
    List.Perm (sortByLe le l) l := by
  induction l with
  | nil => exact List.Perm.refl _
  | cons b t ih => exact (ordInsert_perm le b (sortByLe le t)).trans (ih.cons b)

theorem sortByLe_eq_nil_iff (le : Bookmark → Bookmark → Bool) (l : List Bookmark) :
    sortByLe le l = [] ↔ l = [] := by
  constructor
  · intro h
    have hl := (sortByLe_perm le l).length_eq
    rw [h] at hl
    exact List.length_eq_zero.mp hl.symm
  · intro h
    rw [h]
    rfl

theorem sortByLe_isEmpty (le : Bookmark → Bookmark → Bool) (l : List Bookmark) :
    (sortByLe le l).isEmpty = l.isEmpty := by
  rcases hm : sortByLe le l with _ | ⟨b, t⟩
  · rw [(sortByLe_eq_nil_iff le l).mp hm]
  · rcases l with _ | ⟨c, s⟩
    · rw [(sortByLe_eq_nil_iff le []).mpr rfl] at hm
      exact absurd hm (by simp)
    · rfl

theorem sortByLe_eq_self_of_sorted (le : Bookmark → Bookmark → Bool)
    (l : List Bookmark) (h : l.Pairwise (fun a b => le a b = true)) :
    sortByLe le l = l := by
  induction l with
  | nil => rfl
  | cons b t ih =>
    rw [List.pairwise_cons] at h
    rw [sortByLe, ih h.2]
    exact ordInsert_of_forall_le le b t h.1

theorem sortByLe_eq_reverse_of_sorted (le : Bookmark → Bookmark → Bool)
    (l : List Bookmark) (h : l.Pairwise (fun a b => le a b = false)) :
    sortByLe le l = l.reverse := by
  induction l with
  | nil => rfl
  | cons b t ih =>
    rw [List.pairwise_cons] at h
    rw [sortByLe, ih h.2, List.reverse_cons]
    exact ordInsert_of_forall_not_le le b t.reverse
      (fun c hc => h.1 c (List.mem_reverse.mp hc))

theorem filter_isEmpty_eq_not_any (p : Bookmark → Bool) (l : List Bookmark) :
    (l.filter p).isEmpty = !l.any p := by
  induction l with
  | nil => rfl
  | cons a t ih => cases hpa : p a <;> simp [List.filter_cons, hpa, ih]

theorem filterForPred_eq_matches (inst : Instance) (u : Nat) (key : String)
    (b : Bookmark) :
    (b.contentType == inst.contentType && b.objectId == inst.pk &&
      matchesLookups ⟨some (some u), some key⟩ b) = b.matches u inst key := by
  simp only [matchesLookups, Bookmark.matches]
  rw [Bool.eq_iff_iff]
  simp only [Bool.and_eq_true, beq_iff_eq]
  tauto

theorem existsB_eq_any (s : Store) (u : Nat) (inst : Instance) (key : String) :
    Backend.existsB s u inst key =
      s.bookmarks.any (fun b => b.matches u inst key) := by
  have h1 : managerFilterFor s inst ⟨some (some u), some key⟩ =
      s.bookmarks.filter (fun b => b.matches u inst key) := by
    unfold managerFilterFor
    congr 1
    funext b
    exact filterForPred_eq_matches inst u key b
  rw [Backend.existsB, Backend.filter_for, h1, orderByCreatedAt, if_neg (by simp),
    sortByLe_isEmpty, filter_isEmpty_eq_not_any, Bool.not_not]

theorem countP_le_one_of_pairwise_ne (l : List Bookmark)
    (t : Nat × Nat × String × Option Nat)
    (h : l.Pairwise (fun a b => a.ident ≠ b.ident)) :
    l.countP (fun b => b.ident == t) ≤ 1 := by
  induction l with
  | nil => simp
  | cons a l ih =>
    rw [List.pairwise_cons] at h
    rw [List.countP_cons]
    cases hat : (a.ident == t : Bool) with
    | false => simpa [hat] using ih h.2
    | true =>
      have hz : l.countP (fun b => b.ident == t) = 0 := by
        rw [List.countP_eq_zero]
        intro b hb
        simp only [beq_iff_eq]
        rw [← beq_iff_eq.mp hat]
        exact (h.1 b hb).symm
      simp [hat, hz]

theorem managerAdd_preserves_uniqueTogether (s : Store) (u : Nat) (inst : Instance)
    (key : String) (hs : s.uniqueTogether) (s' : Store) (b : Bookmark)
    (h : managerAdd s u inst key = Except.ok (s', b)) : s'.uniqueTogether := by
  unfold managerAdd at h
  split at h
  · exact absurd h (by simp)
  · rename_i hany
    rw [Except.ok.injEq, Prod.mk.injEq] at h
    obtain ⟨hs', hb⟩ := h
    subst hs'
    unfold Store.uniqueTogether at hs ⊢
    rw [List.pairwise_append]
    refine ⟨hs, by simp, ?_⟩
    intro a ha c hc
    simp only [List.mem_singleton] at hc
    subst hc
    intro hid
    apply hany
    refine List.any_eq_true.mpr ⟨a, ha, ?_⟩
    rw [Bookmark.matches_iff, hid]
    rfl

theorem managerRemove_preserves_uniqueTogether (s : Store) (u : Nat)
    (inst : Instance) (key : String) (hs : s.uniqueTogether) (s' : Store)
    (h : managerRemove s u inst key = Except.ok s') : s'.uniqueTogether := by
  unfold managerRemove at h
  split at h
  · rw [Except.ok.injEq] at h
    subst h
    exact hs.filter _
  · exact absurd h (by simp)

theorem removeAllFor_preserves_uniqueTogether (s : Store) (inst : Instance)
    (hs : s.uniqueTogether) : (managerRemoveAllFor s inst).uniqueTogether :=
  hs.filter _

/-- C1: for every state satisfying the unique_together constraint there is
at most one bookmark per (content_type, object_id, key, user) tuple, and
backend add, backend remove, remove_all_for and the form's save all keep
the constraint. -/
theorem add_remove_save_preserve_uniqueness (s : Store) (u : Nat)
    (inst : Instance) (key : String) (hs : s.uniqueTogether) :
    (∀ t, s.atMostOne t) ∧
    (∀ s' b, Backend.add s u inst key = Except.ok (s', b) → s'.uniqueTogether) ∧
    (∀ s' r, Backend.remove s u inst key = Except.ok (s', r) → s'.uniqueTogether) ∧
    (Backend.remove_all_for s inst).uniqueTogether ∧
    (∀ s' r, BookmarkForm.save s u inst key = Except.ok (s', r) → s'.uniqueTogether) := by
  have hadd : ∀ s' b, Backend.add s u inst key = Except.ok (s', b) →
      s'.uniqueTogether := by
    intro s' b h
    exact managerAdd_preserves_uniqueTogether s u inst key hs s' b h
  have hrem : ∀ s' r, Backend.remove s u inst key = Except.ok (s', r) →
      s'.uniqueTogether := by
    intro s' r h
    unfold Backend.remove at h
    rcases hmr : managerRemove s u inst key with e | s''
    · rw [hmr] at h
      exact absurd h (by simp [Except.map])
    · rw [hmr] at h
      simp only [Except.map, Except.ok.injEq, Prod.mk.injEq] at h
      rw [← h.1]
      exact managerRemove_preserves_uniqueTogether s u inst key hs s'' hmr
  refine ⟨fun t => countP_le_one_of_pairwise_ne s.bookmarks t hs, hadd, hrem,
    removeAllFor_preserves_uniqueTogether s inst hs, ?_⟩
  intro s' r h
  unfold BookmarkForm.save at h
  split at h
  · exact hrem s' r h
  · rcases hma : Backend.add s u inst key with e | p
    · rw [hma] at h
      exact absurd h (by simp [Except.map])
    · rw [hma] at h
      simp only [Except.map, Except.ok.injEq, Prod.mk.injEq] at h
      rw [← h.1]
      exact hadd p.1 p.2 (by rw [hma])

/-- Witness for C1 at a concrete one-row store. -/
theorem add_remove_save_preserve_uniqueness_witness :
    (∀ t, Store.atMostOne ⟨[⟨3, 4, "fav", some 10, 0, some 0⟩], 1, 1⟩ t) ∧
    (Backend.remove_all_for ⟨[⟨3, 4, "fav", some 10, 0, some 0⟩], 1, 1⟩
      ⟨3, 4⟩).uniqueTogether := by
  have h := add_remove_save_preserve_uniqueness
    ⟨[⟨3, 4, "fav", some 10, 0, some 0⟩], 1, 1⟩ 10 ⟨3, 4⟩ "fav" (by
      unfold Store.uniqueTogether
      simp)
  exact ⟨h.1, h.2.2.2.1⟩

/-- C2, divergence witness: with the single bookmark (user 10, target
(3, 4), key "fav") stored, the validated form's save() takes the remove
branch and returns None, because Backend.remove in bookmarks/backends.py
has no return statement; the spec and the repository's own test_remove
say the removed bookmark is returned detached. -/
theorem form_save_existing_returns_none :
    BookmarkForm.save ⟨[⟨3, 4, "fav", some 10, 0, some 0⟩], 1, 1⟩ 10 ⟨3, 4⟩ "fav" =
      Except.ok (⟨[], 1, 1⟩, Option.none) := by
  rfl

theorem any_filter_not {α : Type} (p : α → Bool) (l : List α) :
    (l.filter (fun b => !(p b))).any p = false := by
  cases hq : (l.filter (fun b => !(p b))).any p with
  | false => rfl
  | true =>
    obtain ⟨a, ha, hpa⟩ := List.any_eq_true.mp hq
    rw [List.mem_filter] at ha
    rw [hpa] at ha
    simp at ha

theorem any_filter_of_any_false {α : Type} (p q : α → Bool) (l : List α)
    (h : l.any p = false) : (l.filter q).any p = false := by
  cases hq : (l.filter q).any p with
  | false => rfl
  | true =>
    obtain ⟨x, hx, hpx⟩ := List.any_eq_true.mp hq
    rw [List.mem_filter] at hx
    have hl := List.any_eq_true.mpr ⟨x, hx.1, hpx⟩
    rw [hl] at h
    cases h

/-- C3: backend add creates and returns a new bookmark when the triple is
absent and raises AlreadyExists when it is present (so a second identical
add raises); backend remove deletes the bookmark when present and raises
DoesNotExist when absent. -/
theorem backend_add_remove_contract (s : Store) (u : Nat) (inst : Instance)
    (key : String) :
    (Backend.existsB s u inst key = false →
      ∃ s' b, Backend.add s u inst key = Except.ok (s', b) ∧
        b.matches u inst key = true ∧ b.pk = some s.nextPk ∧
        s'.bookmarks = s.bookmarks ++ [b]) ∧
    (Backend.existsB s u inst key = true →
      Backend.add s u inst key = Except.error BErr.alreadyExists) ∧
    (∀ s' b, Backend.add s u inst key = Except.ok (s', b) →
      Backend.add s' u inst key = Except.error BErr.alreadyExists) ∧
    (Backend.existsB s u inst key = true →
      ∃ s', Backend.remove s u inst key = Except.ok (s', Option.none) ∧
        ∀ b ∈ s'.bookmarks, b.matches u inst key = false) ∧
    (Backend.existsB s u inst key = false →
      Backend.remove s u inst key = Except.error BErr.doesNotExist) := by
  rw [existsB_eq_any]
  refine ⟨?_, ?_, ?_, ?_, ?_⟩
  · intro hany
    refine ⟨⟨s.bookmarks ++
        [⟨inst.contentType, inst.pk, key, some u, s.nextTime, some s.nextPk⟩],
        s.nextTime + 1, s.nextPk + 1⟩,
      ⟨inst.contentType, inst.pk, key, some u, s.nextTime, some s.nextPk⟩,
      ?_, by simp [Bookmark.matches], rfl, rfl⟩
    unfold Backend.add managerAdd
    rw [hany]
    rfl
  · intro hany
    unfold Backend.add managerAdd
    rw [hany]
    rfl
  · intro s' b h
    unfold Backend.add managerAdd at h ⊢
    split at h
    · exact absurd h (by simp)
    · rw [Except.ok.injEq, Prod.mk.injEq] at h
      obtain ⟨hs', hb⟩ := h
      subst hs'
      subst hb
      have : ((s.bookmarks ++
          [(⟨inst.contentType, inst.pk, key, some u, s.nextTime, some s.nextPk⟩ :
            Bookmark)]).any (fun b => b.matches u inst key)) = true := by
        refine List.any_eq_true.mpr
          ⟨⟨inst.contentType, inst.pk, key, some u, s.nextTime, some s.nextPk⟩,
            by simp, by simp [Bookmark.matches]⟩
      rw [this]
      rfl
  · intro hany
    unfold Backend.remove managerRemove
    rw [hany]
    refine ⟨_, rfl, ?_⟩
    intro b hb
    rw [List.mem_filter] at hb
    cases hm : b.matches u inst key with
    | false => rfl
    | true =>
      rw [hm] at hb
      simp at hb
  · intro hany
    unfold Backend.remove managerRemove
    rw [hany]
    rfl

/-- Witness for C3 at the empty store. -/
theorem backend_add_remove_contract_witness :
    (∃ s' b, Backend.add Store.empty 1 ⟨2, 3⟩ "main" = Except.ok (s', b) ∧
      b.matches 1 ⟨2, 3⟩ "main" = true ∧ b.pk = some Store.empty.nextPk ∧
      s'.bookmarks = Store.empty.bookmarks ++ [b]) ∧
    Backend.remove Store.empty 1 ⟨2, 3⟩ "main" = Except.error BErr.doesNotExist := by
  have h := backend_add_remove_contract Store.empty 1 ⟨2, 3⟩ "main"
  exact ⟨h.1 (by rfl), h.2.2.2.2 (by rfl)⟩

/-- C4: exists is false before a successful add, true right after it, and
the subsequent remove succeeds and makes it false again. -/
theorem exists_false_true_false (s : Store) (u : Nat) (inst : Instance)
    (key : String) (s' : Store) (b : Bookmark)
    (h : Backend.add s u inst key = Except.ok (s', b)) :
    Backend.existsB s u inst key = false ∧
    Backend.existsB s' u inst key = true ∧
    ∃ s'', Backend.remove s' u inst key = Except.ok (s'', Option.none) ∧
      Backend.existsB s'' u inst key = false := by
  unfold Backend.add managerAdd at h
  split at h
  · exact absurd h (by simp)
  · rename_i hany
    rw [Except.ok.injEq, Prod.mk.injEq] at h
    obtain ⟨hs', hb⟩ := h
    subst hs'
    have hbefore : Backend.existsB s u inst key = false := by
      rw [existsB_eq_any]
      exact Bool.eq_false_iff.mpr hany
    have hmatch : ((s.bookmarks ++
        [(⟨inst.contentType, inst.pk, key, some u, s.nextTime, some s.nextPk⟩ :
          Bookmark)]).any (fun c => c.matches u inst key)) = true := by
      refine List.any_eq_true.mpr
        ⟨⟨inst.contentType, inst.pk, key, some u, s.nextTime, some s.nextPk⟩,
          by simp, by simp [Bookmark.matches]⟩
    have hafter : Backend.existsB
        ⟨s.bookmarks ++
          [⟨inst.contentType, inst.pk, key, some u, s.nextTime, some s.nextPk⟩],
          s.nextTime + 1, s.nextPk + 1⟩ u inst key = true := by
      rw [existsB_eq_any]
      exact hmatch
    refine ⟨hbefore, hafter, ?_⟩
    rw [existsB_eq_any] at hafter
    simp only [Backend.remove, managerRemove, hafter, if_true, Except.map]
    exact ⟨_, rfl, by rw [existsB_eq_any]; exact any_filter_not _ _⟩

/-- Witness for C4: the concrete add from the empty store. -/
theorem exists_false_true_false_witness :
    Backend.existsB Store.empty 1 ⟨2, 3⟩ "m" = false ∧
    Backend.existsB ⟨[⟨2, 3, "m", some 1, 0, some 0⟩], 1, 1⟩ 1 ⟨2, 3⟩ "m" = true ∧
    ∃ s'', Backend.remove ⟨[⟨2, 3, "m", some 1, 0, some 0⟩], 1, 1⟩ 1 ⟨2, 3⟩ "m" =
        Except.ok (s'', Option.none) ∧ Backend.existsB s'' 1 ⟨2, 3⟩ "m" = false :=
  exists_false_true_false Store.empty 1 ⟨2, 3⟩ "m"
    ⟨[⟨2, 3, "m", some 1, 0, some 0⟩], 1, 1⟩ ⟨2, 3, "m", some 1, 0, some 0⟩ (by rfl)

/-- The four bookmarks of the spec's filtering example, created by
successive backend adds starting from the empty store: B1(user1, i1, k1),
B2(user2, i1, k1), B3(user1, i2, k1), B4(user1, i2, k2), with the two
target instances i1 = (9, 1) and i2 = (9, 2). -/
def exB1 : Bookmark := ⟨9, 1, "k1", some 1, 0, some 0⟩

/-- Second example bookmark (belongs to user 2). -/
def exB2 : Bookmark := ⟨9, 1, "k1", some 2, 1, some 1⟩

/-- Third example bookmark. -/
def exB3 : Bookmark := ⟨9, 2, "k1", some 1, 2, some 2⟩

/-- Fourth example bookmark. -/
def exB4 : Bookmark := ⟨9, 2, "k2", some 1, 3, some 3⟩

/-- Store after inserting exB1. -/
def exS1 : Store := ⟨[exB1], 1, 1⟩

/-- Store after inserting exB1, exB2. -/
def exS2 : Store := ⟨[exB1, exB2], 2, 2⟩

/-- Store after inserting exB1, exB2, exB3. -/
def exS3 : Store := ⟨[exB1, exB2, exB3], 3, 3⟩

/-- Store after inserting all four example bookmarks. -/
def exS4 : Store := ⟨[exB1, exB2, exB3, exB4], 4, 4⟩

theorem sortByLe_asc_of_chron (l : List Bookmark)
    (h : l.Pairwise (fun a b => a.createdAt < b.createdAt)) :
    sortByLe ascLe l = l := by
  refine sortByLe_eq_self_of_sorted ascLe l (h.imp ?_)
  intro a b hab
  exact decide_eq_true_eq.mpr (Nat.le_of_lt hab)

theorem sortByLe_desc_of_chron (l : List Bookmark)
    (h : l.Pairwise (fun a b => a.createdAt < b.createdAt)) :
    sortByLe descLe l = l.reverse := by
  refine sortByLe_eq_reverse_of_sorted descLe l (h.imp ?_)
  intro a b hab
  exact decide_eq_false_iff_not.mpr (Nat.not_le_of_lt hab)

/-- C5: on a chronological store, filter_by(user) is exactly the user's
rows in insertion (ascending creation) order, and reversed=True yields
the exact reverse; on the spec's four-bookmark example the results are
[B1, B3, B4] and [B4, B3, B1]. -/
theorem filter_by_creation_order (s : Store) (u : Nat) (hch : s.chron) :
    Backend.filter_by s u false Lookups.none =
      s.bookmarks.filter (fun b => b.user == some u) ∧
    (Backend.filter_by s u false Lookups.none).Pairwise
      (fun a b => a.createdAt < b.createdAt) ∧
    Backend.filter_by s u true Lookups.none =
      (Backend.filter_by s u false Lookups.none).reverse ∧
    Backend.add Store.empty 1 ⟨9, 1⟩ "k1" = Except.ok (exS1, exB1) ∧
    Backend.add exS1 2 ⟨9, 1⟩ "k1" = Except.ok (exS2, exB2) ∧
    Backend.add exS2 1 ⟨9, 2⟩ "k1" = Except.ok (exS3, exB3) ∧
    Backend.add exS3 1 ⟨9, 2⟩ "k2" = Except.ok (exS4, exB4) ∧
    Backend.filter_by exS4 1 false Lookups.none = [exB1, exB3, exB4] ∧
    Backend.filter_by exS4 1 true Lookups.none = [exB4, exB3, exB1] := by
  have hpred : matchesLookups ⟨some (some u), Option.none⟩ =
      fun b => b.user == some u := by
    funext b
    simp [matchesLookups]
  have hfiltered : (s.bookmarks.filter (fun b => b.user == some u)).Pairwise
      (fun a b => a.createdAt < b.createdAt) := hch.1.filter _
  have hasc : Backend.filter_by s u false Lookups.none =
      s.bookmarks.filter (fun b => b.user == some u) := by
    rw [Backend.filter_by]
    show orderByCreatedAt false (filter_with_contents s _) = _
    rw [orderByCreatedAt, if_neg (by simp), filter_with_contents, Lookups.none]
    show sortByLe ascLe (s.bookmarks.filter (matchesLookups ⟨some (some u), Option.none⟩)) = _
    rw [hpred]
    exact sortByLe_asc_of_chron _ hfiltered
  refine ⟨hasc, by rw [hasc]; exact hfiltered, ?_, by rfl, by rfl, by rfl, by rfl,
    by rfl, by rfl⟩
  rw [hasc, Backend.filter_by]
  show orderByCreatedAt true (filter_with_contents s _) = _
  rw [orderByCreatedAt, if_pos rfl, filter_with_contents, Lookups.none]
  show sortByLe descLe (s.bookmarks.filter (matchesLookups ⟨some (some u), Option.none⟩)) = _
  rw [hpred]
  exact sortByLe_desc_of_chron _ hfiltered

/-- Witness for C5 at the example store, whose chron invariant is decided. -/
theorem filter_by_creation_order_witness :
    Backend.filter_by exS4 1 false Lookups.none =
      exS4.bookmarks.filter (fun b => b.user == some 1) ∧
    Backend.filter_by exS4 1 true Lookups.none =
      (Backend.filter_by exS4 1 false Lookups.none).reverse ∧
    Backend.filter_by exS4 1 false Lookups.none = [exB1, exB3, exB4] ∧
    Backend.filter_by exS4 1 true Lookups.none = [exB4, exB3, exB1] := by
  have h := filter_by_creation_order exS4 1 (by
    constructor
    · decide
    · decide)
  exact ⟨h.1, h.2.2.1, h.2.2.2.2.2.2.2.1, h.2.2.2.2.2.2.2.2⟩

/-- C6, divergence evidence: with "app.article" installed, the view
answers 403 to a GET and 400 Invalid model. to an unknown dotted name,
but any POST whose model resolves raises AttributeError — handlers.py
binds no `library` (it binds the registry as `store`) — and yields no
HTTP response at all, so the claimed 400 responses for an unregistered
model, a disallowed key and a failed form validation are unreachable. -/
theorem bookmark_view_crashes_after_model_resolution :
    handlersModuleNames.contains "library" = false ∧
    bookmarkView resolve0 ⟨"GET", []⟩ = PyOutcome.response ⟨403, "Forbidden."⟩ ∧
    bookmarkView resolve0 ⟨"POST", [("model", "app.unknown")]⟩ =
      PyOutcome.response ⟨400, "Invalid model."⟩ ∧
    bookmarkView resolve0 ⟨"POST", [("model", "app.article")]⟩ =
      PyOutcome.exception "AttributeError" ∧
    (bookmarkView resolve0 ⟨"POST", [("model", "app.article")]⟩).isResponse = false :=
  ⟨by decide, rfl, rfl, rfl, rfl⟩

theorem isRegistered_append (r : Registry) (a m : Nat) (h : Handler)
    (c : List Nat) :
    (Registry.mk (r.registry ++ [(a, h)]) c).isRegistered m =
      (r.isRegistered m || (a == m)) := by
  unfold Registry.isRegistered
  simp [List.any_append]

theorem registerList_isRegistered_mono (ms : List Nat) :
    ∀ (r : Registry) (m : Nat), r.isRegistered m = true →
      (Registry.registerList r ms).1.isRegistered m = true := by
  induction ms with
  | nil => intro r m h; exact h
  | cons a t ih =>
    intro r m h
    rw [Registry.registerList]
    split
    · exact h
    · refine ih _ m ?_
      rw [isRegistered_append]
      simp [h]

theorem registerList_connected_mono (ms : List Nat) :
    ∀ (r : Registry) (m : Nat), m ∈ r.connected →
      m ∈ (Registry.registerList r ms).1.connected := by
  induction ms with
  | nil => intro r m h; exact h
  | cons a t ih =>
    intro r m h
    rw [Registry.registerList]
    split
    · exact h
    · exact ih _ m (by simp [h])

/-- C7: register raises AlreadyHandled whenever any model in the given
list is already registered, and unregister raises NotHandled whenever any
model in the given list is not registered. -/
theorem register_unregister_errors (ms : List Nat) :
    ∀ r : Registry,
    ((∃ m ∈ ms, r.isRegistered m = true) →
      (Registry.registerList r ms).2 = some RegErr.alreadyHandled) ∧
    ((∃ m ∈ ms, r.isRegistered m = false) →
      (Registry.unregisterList r ms).2 = some RegErr.notHandled) := by
  induction ms with
  | nil =>
    intro r
    simp
  | cons a t ih =>
    intro r
    constructor
    · rintro ⟨m, hm, hreg⟩
      rw [Registry.registerList]
      split
      · rfl
      · rename_i hna
        rcases List.mem_cons.mp hm with rfl | hmt
        · exact absurd hreg hna
        · refine (ih _).1 ⟨m, hmt, ?_⟩
          rw [isRegistered_append]
          simp [hreg]
    · rintro ⟨m, hm, hnreg⟩
      rw [Registry.unregisterList]
      split
      · rename_i ha
        rcases List.mem_cons.mp hm with rfl | hmt
        · rw [ha] at hnreg
          cases hnreg
        · refine (ih _).2 ⟨m, hmt, ?_⟩
          unfold Registry.isRegistered at hnreg ⊢
          exact any_filter_of_any_false _ _ _ hnreg
      · rfl

/-- Witness for C7: a registry handling model 0 only. -/
theorem register_unregister_errors_witness :
    (Registry.registerList ⟨[(0, ⟨"main", true⟩)], [0]⟩ [0]).2 =
      some RegErr.alreadyHandled ∧
    (Registry.unregisterList ⟨[(0, ⟨"main", true⟩)], [0]⟩ [5]).2 =
      some RegErr.notHandled := by
  have h := register_unregister_errors [0] ⟨[(0, ⟨"main", true⟩)], [0]⟩
  have h5 := register_unregister_errors [5] ⟨[(0, ⟨"main", true⟩)], [0]⟩
  exact ⟨h.1 ⟨0, by decide, by decide⟩, h5.2 ⟨5, by decide, by decide⟩⟩

/-- C9: register applied to a list is not atomic on failure: when the
models before the offending one are fresh, AlreadyHandled is raised and
those earlier models remain registered, with their delete signal
connected, in the registry the exception leaves behind. -/
theorem register_not_atomic (pre : List Nat) :
    ∀ (r : Registry) (m : Nat) (rest : List Nat),
      (∀ p ∈ pre, r.isRegistered p = false) → pre.Nodup →
      r.isRegistered m = true →
      (Registry.registerList r (pre ++ m :: rest)).2 = some RegErr.alreadyHandled ∧
      ∀ p ∈ pre,
        (Registry.registerList r (pre ++ m :: rest)).1.isRegistered p = true ∧
        p ∈ (Registry.registerList r (pre ++ m :: rest)).1.connected := by
  induction pre with
  | nil =>
    intro r m rest hpre hnd hm
    simp only [List.nil_append]
    rw [Registry.registerList, if_pos hm]
    exact ⟨rfl, by simp⟩
  | cons a t ih =>
    intro r m rest hpre hnd hm
    have ha : r.isRegistered a = false := hpre a (by simp)
    rw [List.cons_append, Registry.registerList, if_neg (by simp [ha])]
    have hpre' : ∀ p ∈ t,
        (Registry.mk (r.registry ++ [(a, ⟨"main", true⟩)])
          (r.connected ++ [a])).isRegistered p = false := by
      intro p hp
      rw [isRegistered_append]
      have hap : ¬ a = p := by
        intro hap
        subst hap
        exact (List.nodup_cons.mp hnd).1 hp
      simp [hpre p (by simp [hp]), hap]
    have hm' : (Registry.mk (r.registry ++ [(a, ⟨"main", true⟩)])
        (r.connected ++ [a])).isRegistered m = true := by
      rw [isRegistered_append]
      simp [hm]
    obtain ⟨herr, hall⟩ := ih _ m rest hpre' (List.nodup_cons.mp hnd).2 hm'
    refine ⟨herr, ?_⟩
    intro p hp
    rcases List.mem_cons.mp hp with rfl | hpt
    · constructor
      · exact registerList_isRegistered_mono _ _ p (by rw [isRegistered_append]; simp)
      · exact registerList_connected_mono _ _ p (by simp)
    · exact hall p hpt

/-- Witness for C9: registering [1, 2, 0] on a registry already handling
model 0 raises but leaves 1 and 2 registered and connected. -/
theorem register_not_atomic_witness :
    (Registry.registerList ⟨[(0, ⟨"main", true⟩)], [0]⟩ [1, 2, 0]).2 =
      some RegErr.alreadyHandled ∧
    ∀ p ∈ [1, 2],
      (Registry.registerList ⟨[(0, ⟨"main", true⟩)], [0]⟩ [1, 2, 0]).1.isRegistered p = true ∧
      p ∈ (Registry.registerList ⟨[(0, ⟨"main", true⟩)], [0]⟩ [1, 2, 0]).1.connected :=
  register_not_atomic [1, 2] ⟨[(0, ⟨"main", true⟩)], [0]⟩ 0 []
    (by decide) (by decide) (by decide)

/-- C10: after register(M) followed by unregister(M), M is no longer in
the registry mapping, but the pre_delete receiver register connected is
still attached, so a delete of an instance of M still runs
remove_all_for and no bookmark referencing the instance survives. -/
theorem unregister_keeps_delete_receiver (r : Registry) (s : Store)
    (inst : Instance) (hfresh : r.isRegistered inst.contentType = false) :
    (Registry.unregisterList
        (Registry.registerList r [inst.contentType]).1
        [inst.contentType]).1.isRegistered inst.contentType = false ∧
    inst.contentType ∈ (Registry.unregisterList
        (Registry.registerList r [inst.contentType]).1
        [inst.contentType]).1.connected ∧
    Registry.dispatchPreDelete
        (Registry.unregisterList (Registry.registerList r [inst.contentType]).1
          [inst.contentType]).1 s inst = Backend.remove_all_for s inst ∧
    ∀ b ∈ (Registry.dispatchPreDelete
        (Registry.unregisterList (Registry.registerList r [inst.contentType]).1
          [inst.contentType]).1 s inst).bookmarks,
      ¬(b.contentType = inst.contentType ∧ b.objectId = inst.pk) := by
  have hreg1 : Registry.registerList r [inst.contentType] =
      (⟨r.registry ++ [(inst.contentType, ⟨"main", true⟩)],
        r.connected ++ [inst.contentType]⟩, Option.none) := by
    rw [Registry.registerList, if_neg (by simp [hfresh])]
    rfl
  have hregd : (Registry.mk (r.registry ++ [(inst.contentType, ⟨"main", true⟩)])
      (r.connected ++ [inst.contentType])).isRegistered inst.contentType = true := by
    rw [isRegistered_append]
    simp
  have hunreg : Registry.unregisterList
      (⟨r.registry ++ [(inst.contentType, ⟨"main", true⟩)],
        r.connected ++ [inst.contentType]⟩ : Registry) [inst.contentType] =
      ((⟨(r.registry ++ [(inst.contentType, (⟨"main", true⟩ : Handler))]).filter
          (fun p => !(p.1 == inst.contentType)),
        r.connected ++ [inst.contentType]⟩ : Registry), Option.none) := by
    rw [Registry.unregisterList, if_pos hregd]
    rfl
  rw [hreg1]
  rw [hunreg]
  have hmem : inst.contentType ∈ r.connected ++ [inst.contentType] := by simp
  have hnoreg : (Registry.mk
      ((r.registry ++ [(inst.contentType, (⟨"main", true⟩ : Handler))]).filter
        (fun p => !(p.1 == inst.contentType)))
      (r.connected ++ [inst.contentType])).isRegistered inst.contentType = false := by
    unfold Registry.isRegistered
    exact any_filter_not _ _
  have hdisp : Registry.dispatchPreDelete
      (⟨(r.registry ++ [(inst.contentType, (⟨"main", true⟩ : Handler))]).filter
          (fun p => !(p.1 == inst.contentType)),
        r.connected ++ [inst.contentType]⟩ : Registry) s inst =
      Backend.remove_all_for s inst := by
    rw [Registry.dispatchPreDelete, if_pos hmem]
  refine ⟨hnoreg, hmem, hdisp, ?_⟩
  rw [hdisp]
  intro b hb
  unfold Backend.remove_all_for managerRemoveAllFor at hb
  simp only [List.mem_filter] at hb
  intro hcontra
  have : (b.contentType == inst.contentType && b.objectId == inst.pk) = true := by
    simp [hcontra.1, hcontra.2]
  rw [this] at hb
  simp at hb

/-- Witness for C10: register then unregister model 3 on the empty
registry, then delete the target (3, 4) with two bookmarks stored. -/
theorem unregister_keeps_delete_receiver_witness :
    (Registry.unregisterList
        (Registry.registerList Registry.empty [3]).1 [3]).1.isRegistered 3 = false ∧
    (3 : Nat) ∈ (Registry.unregisterList
        (Registry.registerList Registry.empty [3]).1 [3]).1.connected ∧
    Registry.dispatchPreDelete
        (Registry.unregisterList (Registry.registerList Registry.empty [3]).1 [3]).1
        ⟨[⟨3, 4, "k", some 1, 0, some 0⟩, ⟨5, 6, "k", some 1, 1, some 1⟩], 2, 2⟩
        ⟨3, 4⟩ =
      Backend.remove_all_for
        ⟨[⟨3, 4, "k", some 1, 0, some 0⟩, ⟨5, 6, "k", some 1, 1, some 1⟩], 2, 2⟩
        ⟨3, 4⟩ ∧
    ∀ b ∈ (Registry.dispatchPreDelete
        (Registry.unregisterList (Registry.registerList Registry.empty [3]).1 [3]).1
        ⟨[⟨3, 4, "k", some 1, 0, some 0⟩, ⟨5, 6, "k", some 1, 1, some 1⟩], 2, 2⟩
        ⟨3, 4⟩).bookmarks,
      ¬(b.contentType = (⟨3, 4⟩ : Instance).contentType ∧
        b.objectId = (⟨3, 4⟩ : Instance).pk) :=
  unregister_keeps_delete_receiver Registry.empty
    ⟨[⟨3, 4, "k", some 1, 0, some 0⟩, ⟨5, 6, "k", some 1, 1, some 1⟩], 2, 2⟩
    ⟨3, 4⟩ (by decide)

/-- C8, divergence witness: Handler.get_key in bookmarks/handlers.py
accepts only (request, instance) after self while both in-repository call
sites (views/init.py line 33, templatetags/bookmarks_tags.py line 104)
pass three arguments, and the method returns self.default_key regardless
of any provided key, whereas the specified get_key returns the provided
key "other" on a handler whose default key is "main". -/
theorem get_key_signature_mismatch :
    ¬ getKeyCallArgCount = getKeyParamCount ∧
    Handler.get_key ⟨"main", true⟩ ⟨"POST", []⟩ ⟨7, 8⟩ = "main" ∧
    getKeySpec ⟨"main", true⟩ ⟨"POST", []⟩ ⟨7, 8⟩ (some "other") = "other" ∧
    ¬ ("main" : String) = "other" :=
  ⟨by decide, rfl, rfl, by decide⟩

end Bookmarks
